import Mathlib

/-!
# Update and lifecycle core of `chrome-runtime.js`

A shallow embedding of `src/chrome/api/chrome-runtime.js`:

* JavaScript strings are sequences of UTF-16 code units (`Str`), compared the
  way the relational operators compare two strings;
* a promise is represented by its eventual fate (`Promise`): resolved with a
  value, rejected with a reason, or never settled;
* the package source (`./chrome-update.js`), the listener registry
  (`makeEvent`), the timers of the host and `chrome.app.window` are external
  to the file and appear as parameters or as small models, each marked so.
-/

namespace ChromeRuntime

/-! ## JavaScript values -/

/-- A JavaScript string: its UTF-16 code units. -/
abbrev Str := List Nat

/-- Code units of an ASCII literal. -/
def ascii (s : String) : Str := s.data.map Char.toNat

/-- The JavaScript values that flow through the update core. -/
inductive JSVal where
  | undefined
  | null
  | bool (b : Bool)
  | str (s : Str)
  deriving DecidableEq, Repr

/-- ToBoolean: the test performed by `if (v)` and `!v`. -/
def truthy : JSVal → Bool
  | .undefined => false
  | .null => false
  | .bool b => b
  | .str s => !s.isEmpty

/-- The relational comparison `a < b` of two strings: the first differing code
unit decides, a proper prefix is smaller. -/
def strLt : Str → Str → Bool
  | _, [] => false
  | [], _ :: _ => true
  | a :: as, b :: bs => if a < b then true else if b < a then false else strLt as bs

/-- The comparison `a <= b` of two strings, which JavaScript evaluates as the
negation of `b < a`. -/
def strLe (a b : Str) : Bool := !strLt b a

/-! ## Promises -/

/-- Failure reasons of the package source. -/
inductive Err where
  | sourceUnavailable
  | downloadFailed
  | extractFailed
  deriving DecidableEq, Repr

/-- The eventual fate of a promise. `pending` is a promise that is never
settled. -/
inductive Promise (α : Type) where
  | resolved (v : α)
  | rejected (e : Err)
  | pending
  deriving DecidableEq, Repr

/-- The method `p.then(f)` where `f` returns a promise (a plain return value
`v` is `Promise.resolved v`). -/
def Promise.andThen {α β : Type} (p : Promise α) (f : α → Promise β) : Promise β :=
  match p with
  | .resolved v => f v
  | .rejected e => .rejected e
  | .pending => .pending

/-- A promise handed out by the package source, from the outcome of the
operation behind it. -/
def Promise.ofExcept {α : Type} : Except Err α → Promise α
  | .ok v => .resolved v
  | .error e => .rejected e

/-! ## The package source (`./chrome-update.js`, external) -/

/-- The record `getLatestVersion` resolves to. -/
structure Latest where
  version : Str
  deriving DecidableEq, Repr

/-- The three operations of `chromeAppUpdater` used by the update check, each
given by its outcome. -/
structure PackageSource where
  getLatestVersion : JSVal → Except Err Latest
  downloadCrx : JSVal → Latest → Except Err Str
  extractCrx : Str → Except Err Unit

/-! ## `ensureLatestCrx` (lines 76-95) -/

/-- The executor of `ensureLatestCrx` only ever calls `resolve`; this is what
happens to the returned promise when the chain built on `getLatestVersion`
ends in the given fate: a value passed to `resolve` settles it, anything else
leaves it unsettled, because `reject` is never called and the chain has no
rejection handler. -/
def settleByResolveOnly {α : Type} : Promise α → Promise α
  | .resolved v => .resolved v
  | .rejected _ => .pending
  | .pending => .pending

/-- The function `ensureLatestCrx(appId, currentVersion)`. The inner chain
resolves exactly when one of the two `resolve` calls is reached, with the
value passed to it. -/
def ensureLatestCrx (src : PackageSource) (appId : JSVal) (currentVersion : Str) :
    Promise JSVal :=
  settleByResolveOnly
    ((Promise.ofExcept (src.getLatestVersion appId)).andThen fun latest =>
      if strLe latest.version currentVersion then
        .resolved .undefined
      else
        ((Promise.ofExcept (src.downloadCrx appId latest)).andThen fun crxPath =>
          Promise.ofExcept (src.extractCrx crxPath)).andThen fun _ =>
            .resolved (.str latest.version))

/-! ## `updateChecker` (lines 171-200) -/

/-- The globals read at the top of the file. -/
structure Env where
  appId : JSVal
  manifestVersion : Str
  chromeRuntimeId : JSVal
  chromeRuntimeVersion : Str
  src : PackageSource

/-- The function `updateChecker()`: the promise it stores in `updatePromise`.
The local variable `latest` starts as `undefined`. -/
def updateChecker (env : Env) : Promise JSVal :=
  if truthy env.chromeRuntimeId then
    match ensureLatestCrx env.src env.chromeRuntimeId env.chromeRuntimeVersion with
    | .resolved version =>
      let latest : JSVal := if truthy version then .str env.manifestVersion else .undefined
      (ensureLatestCrx env.src env.appId env.manifestVersion).andThen fun version =>
        .resolved (if truthy version then version else latest)
    | .rejected e => .rejected e
    | .pending => .pending
  else
    (ensureLatestCrx env.src env.appId env.manifestVersion).andThen fun version =>
      .resolved (if truthy version then version else .undefined)

/-! ## `chrome.runtime.requestUpdateCheck` (lines 109-127) -/

/-- The first argument of the callback. -/
inductive Status where
  | no_update
  | update_available
  deriving DecidableEq, Repr

/-- What a call of `requestUpdateCheck` makes happen. -/
inductive Effect where
  | listener (l : Nat) (version : JSVal)
  | callback (status : Status) (version : JSVal)
  deriving DecidableEq, Repr

/-- Modelled from the spec: `invokeListeners` of an event made by `makeEvent`
(`../main/global.js`, not part of the file) "dispatches to all registered
listeners synchronously in registration order". Listeners are named by
numbers; `details` is represented by its `version` field. -/
def invokeListeners (listeners : List Nat) (version : JSVal) : List Effect :=
  listeners.map fun l => Effect.listener l version

/-- The function `requestUpdateCheck(cb)`: the effects of the handler attached
to `updatePromise`, which runs only if that promise resolves. -/
def requestUpdateCheck (listeners : List Nat) (updatePromise : Promise JSVal) : List Effect :=
  match updatePromise with
  | .resolved version =>
    if !truthy version then
      [Effect.callback .no_update (.str (ascii ""))]
    else
      invokeListeners listeners version ++ [Effect.callback .update_available version]
  | .rejected _ => []
  | .pending => []

/-- The effects of `n` successive calls of `requestUpdateCheck` against the
same `updatePromise`. -/
def requestUpdateChecks (listeners : List Nat) (updatePromise : Promise JSVal) :
    Nat → List Effect
  | 0 => []
  | n + 1 => requestUpdateChecks listeners updatePromise n ++
      requestUpdateCheck listeners updatePromise

/-- How many times listener `l` is invoked in a run of effects. -/
def listenerCalls (l : Nat) (es : List Effect) : Nat :=
  es.countP fun e => match e with
    | .listener l' _ => l' == l
    | .callback _ _ => false

/-! ## Timers and `startUpdateChecker` (lines 202-208) -/

/-- The interval passed to `setInterval`, in milliseconds. -/
def period : Nat := 30 * 60 * 1000

/-- An interval timer of the host whose callback is `updateChecker`:
`remaining` milliseconds are left until it fires next. -/
structure Timer where
  id : Nat
  interval : Nat
  remaining : Nat
  deriving DecidableEq, Repr

/-- Observable events of the lifecycle core. -/
inductive Event where
  | activate
  | pollCycle
  deriving DecidableEq, Repr

/-- The mutable state touched by the update coordinator: the interval timers
of the host, the variables `updateCheckerId` and `updatePromise` (both
`undefined`, here `none`, until first assigned) and the trace of events. -/
structure Sys where
  timers : List Timer
  nextTimerId : Nat
  updateCheckerId : Option Nat
  updatePromise : Option (Promise JSVal)
  log : List Event

/-- The state when the file has just been loaded. -/
def Sys.init (firstTimerId : Nat) : Sys :=
  { timers := [], nextTimerId := firstTimerId, updateCheckerId := none,
    updatePromise := none, log := [] }

/-- Host function `clearInterval(id)`: does nothing for `undefined`. -/
def clearInterval (id : Option Nat) (s : Sys) : Sys :=
  { s with timers := s.timers.filter fun t => !(some t.id == id) }

/-- Host function `setInterval(updateChecker, ms)`: returns the new timer id. -/
def setInterval (ms : Nat) (s : Sys) : Nat × Sys :=
  (s.nextTimerId,
   { s with timers := s.timers ++ [{ id := s.nextTimerId, interval := ms, remaining := ms }],
            nextTimerId := s.nextTimerId + 1 })

/-- One run of `updateChecker()` as a state change: a poll cycle starts and
`updatePromise` is replaced. -/
def runUpdateChecker (env : Env) (s : Sys) : Sys :=
  { s with updatePromise := some (updateChecker env), log := s.log ++ [Event.pollCycle] }

/-- The function `startUpdateChecker()`. -/
def startUpdateChecker (env : Env) (s : Sys) : Sys :=
  let s1 := clearInterval s.updateCheckerId s
  let s2 := runUpdateChecker env s1
  let r := setInterval period s2
  { r.2 with updateCheckerId := some r.1 }

/-- One millisecond of the virtual clock: every timer that becomes due runs
its callback `updateChecker` and is re-armed with its interval. -/
def tick (env : Env) (s : Sys) : Sys :=
  let fired := (s.timers.filter fun t => t.remaining ≤ 1).foldl
    (fun acc _ => runUpdateChecker env acc) s
  { fired with timers := s.timers.map fun t =>
      if t.remaining ≤ 1 then { t with remaining := t.interval }
      else { t with remaining := t.remaining - 1 } }

/-- The clock advanced by `ms` milliseconds. -/
def advance (env : Env) : Nat → Sys → Sys
  | 0, s => s
  | ms + 1, s => advance env ms (tick env s)

/-- What can happen to the update coordinator: a call of
`startUpdateChecker`, or time passing. -/
inductive Step where
  | start
  | elapse (ms : Nat)
  deriving DecidableEq, Repr

/-- A sequence of steps, run in order. -/
def run (env : Env) : List Step → Sys → Sys
  | [], s => s
  | .start :: rest, s => run env rest (startUpdateChecker env s)
  | .elapse ms :: rest, s => run env rest (advance env ms s)

/-- The number of poll cycles started so far. -/
def pollCycles (s : Sys) : Nat := s.log.count Event.pollCycle

/-! ## The ready hook of the background page (lines 218-225) -/

/-- The `onload` function registered by `createBackground`; `wantsActivate` is
the value read by `remote.getGlobal('wantsActivate')`. The call of
`startUpdateChecker` is not governed by the `if`. -/
def backgroundOnload (env : Env) (wantsActivate : JSVal) (s : Sys) : Sys :=
  let s1 := if truthy wantsActivate then { s with log := s.log ++ [Event.activate] } else s
  startUpdateChecker env s1

/-! ## `chrome.runtime.reload` (lines 128-145) -/

/-- A browser window: `ref` is the identity of the object (what `!=` on two
windows compares), `id` its `id` property. -/
structure Window where
  ref : Nat
  id : Nat
  deriving DecidableEq, Repr

/-- Calls made by `reload` on its collaborators. -/
inductive HostCall where
  | close (w : Window)
  | setGlobal (key : String) (value : JSVal)
  | setTimeout (ms : Nat) (closes : Window)
  deriving DecidableEq, Repr

/-- The body of the `for` loop of `reload` for window `w`: the state is the
variable `hadWindows` and the calls made so far. -/
def reloadVisit (selfWindow : Window) (backgroundId : Option Nat)
    (st : JSVal × List HostCall) (w : Window) : JSVal × List HostCall :=
  if w.ref != selfWindow.ref then
    let hadWindows := if backgroundId != some w.id then JSVal.bool true else st.1
    (hadWindows, st.2 ++ [HostCall.close w])
  else st

/-- The function `reload()`, given the invoking window, the result of
`chrome.app.window.get('__background')` (`none` when it is null) and the
result of `BrowserWindow.getAllWindows()`. The variable `hadWindows` is
declared without an initial value, so it starts as `undefined`. -/
def reload (selfWindow : Window) (background : Option Window) (allWindows : List Window) :
    List HostCall :=
  let backgroundId := background.map fun b => b.id
  let st := allWindows.foldl (reloadVisit selfWindow backgroundId) (JSVal.undefined, [])
  st.2 ++ [HostCall.setGlobal "isReloading" (.bool true),
           HostCall.setGlobal "wantsActivate" st.1,
           HostCall.setTimeout 200 selfWindow]

/-- The value the calls leave in the global `key`, if any of them sets it. -/
def globalWritten (key : String) : List HostCall → Option JSVal
  | [] => none
  | .setGlobal k v :: rest =>
    match globalWritten key rest with
    | some v' => some v'
    | none => if k = key then some v else none
  | _ :: rest => globalWritten key rest

/-- Whether some open window is neither the invoking window nor the
background window. -/
def otherWindowOpen (selfWindow : Window) (background : Option Window)
    (allWindows : List Window) : Bool :=
  allWindows.any fun w => w.ref != selfWindow.ref && (background.map fun b => b.id) != some w.id

/-! ## `chrome.runtime.getPlatformInfo` (lines 60-72, 146-152) -/

/-- The result of reading a property of one of the two tables: a string
stored in the table itself, a member found on `Object.prototype` (a function
or object, named here by its key), or `undefined`. -/
inductive Looked where
  | own (value : String)
  | inherited (member : String)
  | undefined
  deriving DecidableEq, Repr

/-- The property names every object literal inherits from `Object.prototype`. -/
def objectPrototypeMembers : List String :=
  ["constructor", "__defineGetter__", "__defineSetter__", "hasOwnProperty",
   "__lookupGetter__", "__lookupSetter__", "isPrototypeOf", "propertyIsEnumerable",
   "toString", "valueOf", "__proto__", "toLocaleString"]

/-- The property read `table[key]` on an object literal with the given
entries: an entry of the literal wins, then the prototype chain is searched,
and only a key found in neither reads as `undefined`. Nothing is thrown. -/
def getProperty : List (String × String) → String → Looked
  | [], key => if key ∈ objectPrototypeMembers then .inherited key else .undefined
  | (k, v) :: rest, key => if key = k then .own v else getProperty rest key

/-- The object literal `hostMap`. -/
def hostMap : List (String × String) :=
  [("darwin", "mac"), ("win32", "win"), ("linux", "linux")]

/-- The object literal `archMap`. -/
def archMap : List (String × String) :=
  [("arm", "arm"), ("arm64", "arm"), ("x86", "x86-32"), ("x32", "x86-32"), ("x64", "x86-64")]

/-- The object passed to the callback of `getPlatformInfo`. -/
structure PlatformInfo where
  os : Looked
  arch : Looked
  nacl_arch : Looked
  deriving DecidableEq, Repr

/-- The function `getPlatformInfo(cb)`: the argument `cb` receives, given the
results of `os.platform()` and `os.arch()`. -/
def getPlatformInfo (platform arch : String) : PlatformInfo :=
  { os := getProperty hostMap platform,
    arch := getProperty archMap arch,
    nacl_arch := getProperty archMap arch }

/-! ## `createBackground` (lines 210-236) -/

/-- The window registry behind `chrome.app.window`: existing windows and
creations in progress by identifier, the callers waiting for a creation, the
number of windows created and the handles handed to callers. -/
structure WinHost where
  windows : List (String × Nat)
  creating : List (String × Nat)
  waiting : List (String × Nat)
  nextHandle : Nat
  created : Nat
  delivered : List (Nat × Nat)
  deriving DecidableEq, Repr

/-- Modelled from the spec: `chrome.app.window.create` lives in
`./chrome-app.js`, which is not part of the file. By the spec a request for an
identifier that already exists "returns the existing handle rather than
creating duplicates", and concurrent requests are kept to one window by "a
creation-in-progress guard": a request that finds a creation in progress for
the identifier waits for it, and only a request that finds neither starts a
creation. `caller` names the callback. -/
def windowCreate (ident : String) (caller : Nat) (h : WinHost) : WinHost :=
  match h.windows.lookup ident with
  | some w => { h with delivered := h.delivered ++ [(caller, w)] }
  | none =>
    match h.creating.lookup ident with
    | some _ => { h with waiting := h.waiting ++ [(ident, caller)] }
    | none =>
      { h with creating := h.creating ++ [(ident, h.nextHandle)],
               waiting := h.waiting ++ [(ident, caller)],
               nextHandle := h.nextHandle + 1,
               created := h.created + 1 }

/-- Modelled from the spec: completion of the creation in progress for
`ident` (the missing `./chrome-app.js`): the window now exists and every
waiting caller is handed its handle, in request order. -/
def windowCreated (ident : String) (h : WinHost) : WinHost :=
  match h.creating.lookup ident with
  | none => h
  | some w =>
    { h with windows := h.windows ++ [(ident, w)],
             creating := h.creating.filter fun p => p.1 != ident,
             waiting := h.waiting.filter fun p => p.1 != ident,
             delivered := h.delivered ++
               ((h.waiting.filter fun p => p.1 == ident).map fun p => (p.2, w)) }

/-- The function `createBackground()`: a request to `chrome.app.window.create`
for the identifier `'__background'`; `caller` names its callback, which
receives the handle as `bg` and whose body is `createBackgroundCallback`. -/
def createBackground (caller : Nat) (h : WinHost) : WinHost :=
  windowCreate "__background" caller h

/-- Calls made on the background window by the callback of
`createBackground`. -/
inductive BgCall where
  | setWindowGlobal (bg : Nat) (key : String)
  | safeRegister (bg : Nat) (event : String)
  | loadURL (bg : Nat) (url : String)
  | openDevTools (bg : Nat)
  deriving DecidableEq, Repr

/-- The body of the callback passed to `chrome.app.window.create` (lines
217-235), for the window `bg` and the value of `chrome.runtime.id`: it
registers the `onload` hook (`backgroundOnload`), the hide-on-show
interception, loads the generated background page and opens the developer
tools. -/
def createBackgroundCallback (runtimeId : String) (bg : Nat) : List BgCall :=
  [BgCall.setWindowGlobal bg "onload",
   BgCall.safeRegister bg "show",
   BgCall.loadURL bg ("chrome-extension://" ++ runtimeId ++ "/_generated_background_page.html"),
   BgCall.openDevTools bg]

/-- All calls made by the callbacks that have run so far, in order. -/
def backgroundCalls (runtimeId : String) (h : WinHost) : List BgCall :=
  (h.delivered.map fun d => createBackgroundCallback runtimeId d.2).flatten

/-- The registry before any window exists: nothing created, nothing in
progress, nobody waiting. -/
def WinHost.init (firstHandle : Nat) : WinHost :=
  { windows := [], creating := [], waiting := [], nextHandle := firstHandle,
    created := 0, delivered := [] }

/-! ## Concrete inputs used by the examples -/

/-- A package source that offers version `latestRt` for the identifier `rt`
and `latestApp` for every other identifier; downloads and extraction succeed. -/
def sourceOffering (latestRt latestApp : Str) : PackageSource :=
  { getLatestVersion := fun i =>
      if i = JSVal.str (ascii "rt") then .ok { version := latestRt }
      else .ok { version := latestApp },
    downloadCrx := fun _ _ => .ok (ascii "/tmp/app.crx"),
    extractCrx := fun _ => .ok () }

/-- A package source whose version query fails. -/
def sourceUnreachable : PackageSource :=
  { getLatestVersion := fun _ => .error Err.sourceUnavailable,
    downloadCrx := fun _ _ => .ok (ascii "/tmp/app.crx"),
    extractCrx := fun _ => .ok () }

/-- A package source that offers version 2.0 and then fails to download it. -/
def sourceDownloadFails : PackageSource :=
  { getLatestVersion := fun _ => .ok { version := ascii "2.0" },
    downloadCrx := fun _ _ => .error Err.downloadFailed,
    extractCrx := fun _ => .ok () }

/-- A package source that offers version 2.0 and fails to extract it. -/
def sourceExtractFails : PackageSource :=
  { getLatestVersion := fun _ => .ok { version := ascii "2.0" },
    downloadCrx := fun _ _ => .ok (ascii "/tmp/app.crx"),
    extractCrx := fun _ => .error Err.extractFailed }

/-- An application `app` at version `appCur` with the runtime package `rt` at
version `rtCur`, against a source offering `rtNew` and `appNew`. -/
def envWithRuntime (rtCur rtNew appCur appNew : Str) : Env :=
  { appId := .str (ascii "app"), manifestVersion := appCur,
    chromeRuntimeId := .str (ascii "rt"), chromeRuntimeVersion := rtCur,
    src := sourceOffering rtNew appNew }

/-- The same application with no runtime package configured. -/
def envWithoutRuntime (appCur appNew : Str) : Env :=
  { appId := .str (ascii "app"), manifestVersion := appCur,
    chromeRuntimeId := .undefined, chromeRuntimeVersion := [],
    src := sourceOffering [] appNew }

/-- A check of package `ident` at version `current` succeeds with the source
reporting `latest`: the query succeeds and, when `latest` is newer, so do the
download and the extraction. -/
def CheckSucceeds (src : PackageSource) (ident : JSVal) (current : Str) (latest : Latest) :
    Prop :=
  src.getLatestVersion ident = .ok latest ∧
    (strLt current latest.version = true →
      ∃ crxPath, src.downloadCrx ident latest = .ok crxPath ∧ src.extractCrx crxPath = .ok ())

/-! ## Properties of the comparison -/

theorem strLt_nil_right (a : Str) : strLt a [] = false := by
  cases a <;> rfl

theorem truthy_of_strLt {a b : Str} (h : strLt a b = true) : truthy (.str b) = true := by
  cases b with
  | nil => rw [strLt_nil_right] at h; exact absurd h (by decide)
  | cons x xs => rfl

theorem ne_nil_of_strLt {a b : Str} (h : strLt a b = true) : b ≠ [] := by
  intro hb
  rw [hb, strLt_nil_right] at h
  exact absurd h (by decide)

theorem strLe_eq_false_iff (a b : Str) : strLe a b = false ↔ strLt b a = true := by
  unfold strLe; cases strLt b a <;> simp

/-- The comparison `strLt` is the strict lexicographic order on code units. -/
theorem strLt_iff_lex (a b : Str) : strLt a b = true ↔ List.Lex (· < ·) a b := by
  induction a generalizing b with
  | nil =>
    cases b with
    | nil => simp [strLt]
    | cons y ys => simp [strLt, List.Lex.nil]
  | cons x xs ih =>
    cases b with
    | nil => simp [strLt]
    | cons y ys =>
      unfold strLt
      by_cases hxy : x < y
      · simp [hxy, List.Lex.rel hxy]
      · by_cases hyx : y < x
        · simp only [hxy, hyx, if_false, if_true]
          constructor
          · intro h; exact absurd h (by decide)
          · intro h
            cases h with
            | cons h' => exact absurd hyx (lt_irrefl _)
            | rel h' => exact absurd h' hxy
        · have hEq : x = y := by omega
          subst hEq
          simp only [hxy, if_false]
          rw [ih ys]
          constructor
          · intro h; exact List.Lex.cons h
          · intro h
            cases h with
            | cons h' => exact h'
            | rel h' => exact absurd h' hxy

/-! ## `ensureLatestCrx` -/

theorem ensureLatestCrx_of_check {src : PackageSource} {ident : JSVal} {current : Str}
    {latest : Latest} (h : CheckSucceeds src ident current latest) :
    ensureLatestCrx src ident current =
      .resolved (if strLt current latest.version then .str latest.version else .undefined) := by
  obtain ⟨hq, hd⟩ := h
  unfold ensureLatestCrx
  rw [hq]
  cases hlt : strLt current latest.version with
  | false =>
    simp [Promise.ofExcept, Promise.andThen, settleByResolveOnly, strLe, hlt]
  | true =>
    obtain ⟨crxPath, h1, h2⟩ := hd hlt
    simp [Promise.ofExcept, Promise.andThen, settleByResolveOnly, strLe, hlt, h1, h2]

/-- C1: when the source reports `latest` for a package and the download and
the extraction succeed, `ensureLatestCrx(id, current)` resolves without a
value if and only if `latest <= current`, and in every other case resolves to
exactly the version string `latest`. -/
theorem ensureLatestCrx_resolves (src : PackageSource) (ident : JSVal) (current : Str)
    (latest : Latest) (crxPath : Str)
    (hq : src.getLatestVersion ident = .ok latest)
    (hd : src.downloadCrx ident latest = .ok crxPath)
    (he : src.extractCrx crxPath = .ok ()) :
    (ensureLatestCrx src ident current = .resolved .undefined ↔
        strLe latest.version current = true) ∧
      (strLe latest.version current ≠ true →
        ensureLatestCrx src ident current = .resolved (.str latest.version)) := by
  have hc : CheckSucceeds src ident current latest := ⟨hq, fun _ => ⟨crxPath, hd, he⟩⟩
  rw [ensureLatestCrx_of_check hc]
  cases hlt : strLt current latest.version <;> simp [strLe, hlt]

theorem ensureLatestCrx_resolves_witness :
    (ensureLatestCrx (sourceOffering [] (ascii "2.0")) (.str (ascii "app")) (ascii "1.0")
        = .resolved .undefined ↔ strLe (ascii "2.0") (ascii "1.0") = true) ∧
      (strLe (ascii "2.0") (ascii "1.0") ≠ true →
        ensureLatestCrx (sourceOffering [] (ascii "2.0")) (.str (ascii "app")) (ascii "1.0")
          = .resolved (.str (ascii "2.0"))) :=
  ensureLatestCrx_resolves (sourceOffering [] (ascii "2.0")) (.str (ascii "app")) (ascii "1.0")
    { version := ascii "2.0" } (ascii "/tmp/app.crx") rfl rfl rfl

/-- C2: in a poll cycle in which every check succeeds, `updatePromise`
resolves to the new version of the application when the application has a
strictly newer version (with or without a runtime package, with or without a
runtime update); otherwise to the current manifest version when a runtime
package is configured and has an update; otherwise to no value. -/
theorem updateChecker_result (env : Env) (appLatest rtLatest : Latest)
    (happ : CheckSucceeds env.src env.appId env.manifestVersion appLatest)
    (hrt : truthy env.chromeRuntimeId = true →
      CheckSucceeds env.src env.chromeRuntimeId env.chromeRuntimeVersion rtLatest) :
    updateChecker env = .resolved
      (if strLt env.manifestVersion appLatest.version then .str appLatest.version
       else if truthy env.chromeRuntimeId && strLt env.chromeRuntimeVersion rtLatest.version
         then .str env.manifestVersion
       else .undefined) := by
  unfold updateChecker
  cases hcfg : truthy env.chromeRuntimeId with
  | false =>
    rw [ensureLatestCrx_of_check happ]
    cases hlt : strLt env.manifestVersion appLatest.version with
    | false => simp [Promise.andThen, truthy]
    | true => simp [Promise.andThen, truthy_of_strLt hlt]
  | true =>
    rw [ensureLatestCrx_of_check (hrt hcfg), ensureLatestCrx_of_check happ]
    cases hlt : strLt env.manifestVersion appLatest.version with
    | true => simp [Promise.andThen, truthy_of_strLt hlt]
    | false =>
      cases hr : strLt env.chromeRuntimeVersion rtLatest.version with
      | false => simp [Promise.andThen, truthy]
      | true => simp [Promise.andThen, truthy, ne_nil_of_strLt hr]

theorem updateChecker_result_witness :
    updateChecker (envWithRuntime (ascii "1.0") (ascii "2.0") (ascii "1.4") (ascii "1.5")) =
      .resolved
        (if strLt (ascii "1.4") (ascii "1.5") then .str (ascii "1.5")
         else if truthy (.str (ascii "rt")) && strLt (ascii "1.0") (ascii "2.0")
           then .str (ascii "1.4")
         else .undefined) :=
  updateChecker_result (envWithRuntime (ascii "1.0") (ascii "2.0") (ascii "1.4") (ascii "1.5"))
    { version := ascii "1.5" } { version := ascii "2.0" }
    ⟨rfl, fun _ => ⟨ascii "/tmp/app.crx", rfl, rfl⟩⟩
    (fun _ => ⟨rfl, fun _ => ⟨ascii "/tmp/app.crx", rfl, rfl⟩⟩)

/-- C3, as stated, fails: with the runtime package `rt` configured at 1.0 and
offered at 2.0, and the application at 1.0 offered at 1.0, the poll cycle
resolves `updatePromise` to the manifest version 1.0, and a following
`requestUpdateCheck` notifies the listener and calls back with
`update_available` and version 1.0, not with `no_update`. -/
theorem runtime_update_reports_update_available :
    truthy (envWithRuntime (ascii "1.0") (ascii "2.0") (ascii "1.0") (ascii "1.0")).chromeRuntimeId
        = true ∧
      strLt (ascii "1.0") (ascii "2.0") = true ∧
      strLe (ascii "1.0") (ascii "1.0") = true ∧
      updateChecker (envWithRuntime (ascii "1.0") (ascii "2.0") (ascii "1.0") (ascii "1.0"))
        ≠ .resolved .undefined ∧
      requestUpdateCheck [7]
          (updateChecker (envWithRuntime (ascii "1.0") (ascii "2.0") (ascii "1.0") (ascii "1.0")))
        = [Effect.listener 7 (.str (ascii "1.0")),
           Effect.callback .update_available (.str (ascii "1.0"))] := by
  decide

/-- C3, amended: when a runtime package is configured, the source reports
for it a version strictly greater than its current version and the download
and the extraction of that version succeed, and the source reports for the
application a version not greater than its current version, the poll cycle
resolves `updatePromise` to the current manifest version of the application; a
following `requestUpdateCheck` then notifies the listeners and calls back with
`update_available` and that version, unless that version is the empty string,
in which case it calls back with `no_update` and an empty version. -/
theorem runtime_update_reports_manifest_version (env : Env) (appLatest rtLatest : Latest)
    (crxPath : Str) (listeners : List Nat)
    (hcfg : truthy env.chromeRuntimeId = true)
    (hq : env.src.getLatestVersion env.chromeRuntimeId = .ok rtLatest)
    (hnew : strLt env.chromeRuntimeVersion rtLatest.version = true)
    (hd : env.src.downloadCrx env.chromeRuntimeId rtLatest = .ok crxPath)
    (he : env.src.extractCrx crxPath = .ok ())
    (happ : env.src.getLatestVersion env.appId = .ok appLatest)
    (hold : strLe appLatest.version env.manifestVersion = true) :
    updateChecker env = .resolved (.str env.manifestVersion) ∧
      requestUpdateCheck listeners (updateChecker env) =
        (if env.manifestVersion = [] then [Effect.callback .no_update (.str [])]
         else invokeListeners listeners (.str env.manifestVersion) ++
           [Effect.callback .update_available (.str env.manifestVersion)]) := by
  have hlt : strLt env.manifestVersion appLatest.version = false := by
    unfold strLe at hold
    cases h : strLt env.manifestVersion appLatest.version
    · rfl
    · rw [h] at hold; exact absurd hold (by decide)
  have hrt : CheckSucceeds env.src env.chromeRuntimeId env.chromeRuntimeVersion rtLatest :=
    ⟨hq, fun _ => ⟨crxPath, hd, he⟩⟩
  have hc : CheckSucceeds env.src env.appId env.manifestVersion appLatest :=
    ⟨happ, fun h => by rw [hlt] at h; exact absurd h (by decide)⟩
  have hres : updateChecker env = .resolved (.str env.manifestVersion) := by
    unfold updateChecker
    rw [hcfg, ensureLatestCrx_of_check hrt, ensureLatestCrx_of_check hc]
    simp [hnew, hlt, Promise.andThen, truthy, ne_nil_of_strLt hnew]
  refine ⟨hres, ?_⟩
  rw [hres]
  cases hm : env.manifestVersion with
  | nil => simp [requestUpdateCheck, truthy, ascii]
  | cons x xs => simp [requestUpdateCheck, truthy]

theorem runtime_update_reports_manifest_version_witness :
    updateChecker (envWithRuntime (ascii "1.0") (ascii "2.0") (ascii "1.0") (ascii "1.0"))
        = .resolved (.str (ascii "1.0")) ∧
      requestUpdateCheck [7, 8]
          (updateChecker (envWithRuntime (ascii "1.0") (ascii "2.0") (ascii "1.0") (ascii "1.0")))
        = (if ascii "1.0" = [] then [Effect.callback .no_update (.str [])]
           else invokeListeners [7, 8] (.str (ascii "1.0")) ++
             [Effect.callback .update_available (.str (ascii "1.0"))]) :=
  runtime_update_reports_manifest_version
    (envWithRuntime (ascii "1.0") (ascii "2.0") (ascii "1.0") (ascii "1.0"))
    { version := ascii "1.0" } { version := ascii "2.0" } (ascii "/tmp/app.crx") [7, 8]
    (by decide) rfl (by decide) rfl rfl rfl (by decide)

/-! ## `requestUpdateCheck` and the listeners -/

theorem listenerCalls_append (l : Nat) (es fs : List Effect) :
    listenerCalls l (es ++ fs) = listenerCalls l es + listenerCalls l fs := by
  simp [listenerCalls, List.countP_append]

theorem listenerCalls_invokeListeners (l : Nat) (listeners : List Nat) (version : JSVal) :
    listenerCalls l (invokeListeners listeners version) = listeners.count l := by
  induction listeners with
  | nil => rfl
  | cons x xs ih =>
    simp only [listenerCalls, invokeListeners, List.map_cons, List.countP_cons] at ih ⊢
    rw [ih, List.count_cons]

theorem listenerCalls_requestUpdateCheck (l : Nat) (listeners : List Nat)
    (updatePromise : Promise JSVal) :
    listenerCalls l (requestUpdateCheck listeners updatePromise) =
      match updatePromise with
      | .resolved version => if truthy version then listeners.count l else 0
      | .rejected _ => 0
      | .pending => 0 := by
  cases updatePromise with
  | resolved version =>
    cases hv : truthy version with
    | false => simp [requestUpdateCheck, hv, listenerCalls]
    | true =>
      simp only [requestUpdateCheck, hv, Bool.not_true, Bool.false_eq_true, if_false, if_true]
      rw [listenerCalls_append, listenerCalls_invokeListeners]
      simp [listenerCalls]
  | rejected e => rfl
  | pending => rfl

/-- C4, as stated, fails: with one registered listener and `updatePromise`
resolved to version 2.0, two calls of `requestUpdateCheck` invoke the listener
twice, not once. -/
theorem listener_invoked_twice_by_two_requests :
    truthy (.str (ascii "2.0")) = true ∧
      listenerCalls 7 (requestUpdateChecks [7] (.resolved (.str (ascii "2.0"))) 2) = 2 ∧
      listenerCalls 7 (requestUpdateChecks [7] (.resolved (.str (ascii "2.0"))) 2) ≠ 1 := by
  decide

/-- C4, amended: while `updatePromise` is resolved to a version (a non-empty
string), `n` calls of `requestUpdateCheck` invoke each registered
`onUpdateAvailable` listener exactly `n` times in total, once per call (a
listener registered `k` times is invoked `n * k` times); when it is resolved
to no update, no listener is invoked. -/
theorem listener_invoked_once_per_request (listeners : List Nat) (version : JSVal)
    (n l : Nat) :
    listenerCalls l (requestUpdateChecks listeners (.resolved version) n) =
      (if truthy version then n * listeners.count l else 0) := by
  induction n with
  | zero => simp [requestUpdateChecks, listenerCalls]
  | succ k ih =>
    rw [requestUpdateChecks, listenerCalls_append, ih, listenerCalls_requestUpdateCheck]
    cases hv : truthy version
    · simp [hv]
    · simp [hv, Nat.succ_mul]

/-- C5, on the code: `ensureLatestCrx` never rejects. When the version query
fails, or the download or the extraction of a newer version fails, the
promise it returned stays unsettled: here for an unreachable source, a failing
download and a failing extraction of version 2.0 over 1.0. -/
theorem ensureLatestCrx_failure_leaves_pending :
    (∀ (src : PackageSource) (ident : JSVal) (current : Str) (e : Err),
        ensureLatestCrx src ident current ≠ .rejected e) ∧
      ensureLatestCrx sourceUnreachable (.str (ascii "app")) (ascii "1.0") = .pending ∧
      ensureLatestCrx sourceDownloadFails (.str (ascii "app")) (ascii "1.0") = .pending ∧
      ensureLatestCrx sourceExtractFails (.str (ascii "app")) (ascii "1.0") = .pending := by
  refine ⟨?_, by decide, by decide, by decide⟩
  intro src ident current e
  unfold ensureLatestCrx
  generalize ((Promise.ofExcept (src.getLatestVersion ident)).andThen _) = p
  cases p <;> simp [settleByResolveOnly]

/-! ## The polling timer -/

/-- Every live timer is the one remembered in `updateCheckerId`. -/
def TimersTracked (s : Sys) : Prop :=
  ∀ t ∈ s.timers, some t.id = s.updateCheckerId

theorem timersTracked_init (firstTimerId : Nat) : TimersTracked (Sys.init firstTimerId) := by
  intro t ht
  simp [Sys.init] at ht

theorem startUpdateChecker_timers (env : Env) (s : Sys) (h : TimersTracked s) :
    (startUpdateChecker env s).timers =
      [{ id := s.nextTimerId, interval := period, remaining := period }] := by
  have hnil : (s.timers.filter fun t => !(some t.id == s.updateCheckerId)) = [] := by
    rw [List.filter_eq_nil_iff]
    intro t ht
    simp [h t ht]
  simp [startUpdateChecker, setInterval, runUpdateChecker, clearInterval, hnil]

theorem startUpdateChecker_updateCheckerId (env : Env) (s : Sys) :
    (startUpdateChecker env s).updateCheckerId = some s.nextTimerId := by
  simp [startUpdateChecker, setInterval, runUpdateChecker, clearInterval]

theorem startUpdateChecker_log (env : Env) (s : Sys) :
    (startUpdateChecker env s).log = s.log ++ [Event.pollCycle] := by
  simp [startUpdateChecker, setInterval, runUpdateChecker, clearInterval]

theorem timersTracked_start (env : Env) (s : Sys) (h : TimersTracked s) :
    TimersTracked (startUpdateChecker env s) := by
  intro t ht
  rw [startUpdateChecker_timers env s h] at ht
  rw [startUpdateChecker_updateCheckerId]
  simp at ht
  rw [ht]

theorem foldl_runUpdateChecker_updateCheckerId (env : Env) (ts : List Timer) (s : Sys) :
    (ts.foldl (fun acc _ => runUpdateChecker env acc) s).updateCheckerId = s.updateCheckerId := by
  induction ts generalizing s with
  | nil => rfl
  | cons t ts ih => rw [List.foldl_cons, ih]; rfl

theorem timersTracked_tick (env : Env) (s : Sys) (h : TimersTracked s) :
    TimersTracked (tick env s) := by
  intro t ht
  simp only [tick, List.mem_map] at ht
  obtain ⟨u, hu, rfl⟩ := ht
  simp only [tick, foldl_runUpdateChecker_updateCheckerId]
  have := h u hu
  split <;> exact this

theorem timersTracked_advance (env : Env) (ms : Nat) (s : Sys) (h : TimersTracked s) :
    TimersTracked (advance env ms s) := by
  induction ms generalizing s with
  | zero => exact h
  | succ k ih => exact ih (tick env s) (timersTracked_tick env s h)

theorem timersTracked_run (env : Env) (steps : List Step) (s : Sys) (h : TimersTracked s) :
    TimersTracked (run env steps s) := by
  induction steps generalizing s with
  | nil => exact h
  | cons st rest ih =>
    cases st with
    | start => exact ih _ (timersTracked_start env s h)
    | elapse ms => exact ih _ (timersTracked_advance env ms s h)

theorem run_append (env : Env) (xs ys : List Step) (s : Sys) :
    run env (xs ++ ys) s = run env ys (run env xs s) := by
  induction xs generalizing s with
  | nil => rfl
  | cons st rest ih =>
    cases st with
    | start => exact ih _
    | elapse ms => exact ih _

theorem advance_add (env : Env) (a b : Nat) (s : Sys) :
    advance env (a + b) s = advance env b (advance env a s) := by
  induction a generalizing s with
  | zero => simp [advance]
  | succ k ih => rw [Nat.succ_add, advance, advance, ih]

/-- A tick that does not reach the due time of the only timer. -/
theorem tick_single_waiting (env : Env) (s : Sys) (i p r : Nat)
    (ht : s.timers = [{ id := i, interval := p, remaining := r }]) (hr : 1 < r) :
    (tick env s).timers = [{ id := i, interval := p, remaining := r - 1 }] ∧
      pollCycles (tick env s) = pollCycles s := by
  have h1 : ¬ r ≤ 1 := by omega
  simp [tick, ht, h1, pollCycles]

/-- A tick at which the only timer is due. -/
theorem tick_single_due (env : Env) (s : Sys) (i p r : Nat)
    (ht : s.timers = [{ id := i, interval := p, remaining := r }]) (hr : r ≤ 1) :
    (tick env s).timers = [{ id := i, interval := p, remaining := p }] ∧
      pollCycles (tick env s) = pollCycles s + 1 := by
  simp [tick, ht, hr, pollCycles, runUpdateChecker, List.count_append]

/-- The only timer fires once when exactly its remaining time passes. -/
theorem advance_single_until_due (env : Env) (i p : Nat) (r : Nat) (s : Sys)
    (ht : s.timers = [{ id := i, interval := p, remaining := r }]) (hr : 1 ≤ r) :
    (advance env r s).timers = [{ id := i, interval := p, remaining := p }] ∧
      pollCycles (advance env r s) = pollCycles s + 1 := by
  induction r generalizing s with
  | zero => omega
  | succ k ih =>
    rw [advance]
    by_cases hk : k = 0
    · subst hk
      exact tick_single_due env s i p 1 ht (le_refl 1)
    · obtain ⟨h1, h2⟩ := tick_single_waiting env s i p (k + 1) ht (by omega)
      have := ih (tick env s) (by simpa using h1) (by omega)
      rw [h2] at this
      exact this

/-- A single timer armed with its full interval fires exactly `n` times in
`n` intervals. -/
theorem advance_single_intervals (env : Env) (i p : Nat) (hp : 1 ≤ p) (n : Nat) (s : Sys)
    (ht : s.timers = [{ id := i, interval := p, remaining := p }]) :
    (advance env (n * p) s).timers = [{ id := i, interval := p, remaining := p }] ∧
      pollCycles (advance env (n * p) s) = pollCycles s + n := by
  induction n with
  | zero => simp [advance, ht]
  | succ k ih =>
    rw [Nat.succ_mul, advance_add]
    obtain ⟨h1, h2⟩ := ih
    obtain ⟨h3, h4⟩ := advance_single_until_due env i p p (advance env (k * p) s) h1 hp
    exact ⟨h3, by rw [h4, h2]; omega⟩

/-- C6: after any sequence of calls of `startUpdateChecker` and of time
passing that ends with a call of `startUpdateChecker`, exactly one interval
timer is live (the one stored in `updateCheckerId`, since the call cleared the
stored one before scheduling), the call ran one poll cycle immediately, and
`n` further intervals of 30 minutes trigger exactly `n` poll cycles. -/
theorem startUpdateChecker_single_timer (env : Env) (firstTimerId : Nat) (steps : List Step)
    (n : Nat) :
    (run env (steps ++ [Step.start]) (Sys.init firstTimerId)).timers.length = 1 ∧
      (∀ t ∈ (run env (steps ++ [Step.start]) (Sys.init firstTimerId)).timers,
        some t.id = (run env (steps ++ [Step.start]) (Sys.init firstTimerId)).updateCheckerId) ∧
      pollCycles (run env (steps ++ [Step.start]) (Sys.init firstTimerId)) =
        pollCycles (run env steps (Sys.init firstTimerId)) + 1 ∧
      pollCycles (advance env (n * (30 * 60 * 1000))
          (run env (steps ++ [Step.start]) (Sys.init firstTimerId))) =
        pollCycles (run env (steps ++ [Step.start]) (Sys.init firstTimerId)) + n := by
  have hinv := timersTracked_run env steps _ (timersTracked_init firstTimerId)
  have hrun : run env (steps ++ [Step.start]) (Sys.init firstTimerId) =
      startUpdateChecker env (run env steps (Sys.init firstTimerId)) := by
    rw [run_append]; rfl
  have ht := startUpdateChecker_timers env _ hinv
  rw [hrun]
  refine ⟨by rw [ht]; rfl, timersTracked_start env _ hinv, ?_, ?_⟩
  · simp [pollCycles, startUpdateChecker_log, List.count_append]
  · exact (advance_single_intervals env _ period (by decide) n _ ht).2

/-! ## The ready hook -/

/-- C9: the ready hook of the background page emits `activate` exactly when
`wantsActivate` is truthy, always starts the polling loop (it runs the first
poll cycle and leaves a live 30-minute timer stored in `updateCheckerId`), and
emits `activate` before the first poll cycle starts. -/
theorem backgroundOnload_activate_then_poll (env : Env) (wantsActivate : JSVal) (s : Sys) :
    (backgroundOnload env wantsActivate s).log =
        s.log ++ (if truthy wantsActivate then [Event.activate] else []) ++ [Event.pollCycle] ∧
      (backgroundOnload env wantsActivate s).updateCheckerId = some s.nextTimerId ∧
      ({ id := s.nextTimerId, interval := 30 * 60 * 1000, remaining := 30 * 60 * 1000 } : Timer)
        ∈ (backgroundOnload env wantsActivate s).timers ∧
      (backgroundOnload env wantsActivate s).updatePromise = some (updateChecker env) := by
  cases hw : truthy wantsActivate <;>
    simp [backgroundOnload, hw, startUpdateChecker, setInterval, runUpdateChecker,
      clearInterval, period]

/-! ## `reload` -/

theorem foldl_reloadVisit (selfWindow : Window) (backgroundId : Option Nat)
    (ws : List Window) (st : JSVal × List HostCall) :
    ws.foldl (reloadVisit selfWindow backgroundId) st =
      (if ws.any (fun w => w.ref != selfWindow.ref && backgroundId != some w.id)
        then JSVal.bool true else st.1,
       st.2 ++ (ws.filter fun w => w.ref != selfWindow.ref).map HostCall.close) := by
  induction ws generalizing st with
  | nil => simp
  | cons w ws ih =>
    rw [List.foldl_cons, ih]
    unfold reloadVisit
    by_cases h1 : (w.ref != selfWindow.ref) = true
    · by_cases h2 : (backgroundId != some w.id) = true
      · simp [h1, h2]
      · simp [h1, h2]
    · simp [h1]

theorem globalWritten_closes (key : String) (ws : List Window) (rest : List HostCall) :
    globalWritten key (ws.map HostCall.close ++ rest) = globalWritten key rest := by
  induction ws with
  | nil => rfl
  | cons w ws ih => simpa [globalWritten] using ih

/-- C7, as stated, fails: with the invoking window as the only open window,
`reload()` sets `wantsActivate` to `undefined`, not to `false`. -/
theorem reload_alone_writes_undefined :
    globalWritten "wantsActivate" (reload ⟨1, 1⟩ none [⟨1, 1⟩]) = some JSVal.undefined ∧
      globalWritten "wantsActivate" (reload ⟨1, 1⟩ none [⟨1, 1⟩]) ≠ some (JSVal.bool false) := by
  decide

/-- C7, amended: for every list of open windows, `reload()` sets `isReloading`
to `true`, and sets `wantsActivate` to `true` when at least one open window is
neither the invoking window nor the background window, and to `undefined` (a
falsy value) otherwise, in particular when no window other than the invoking
window is open. -/
theorem reload_sets_flags (selfWindow : Window) (background : Option Window)
    (allWindows : List Window) :
    globalWritten "isReloading" (reload selfWindow background allWindows)
        = some (JSVal.bool true) ∧
      globalWritten "wantsActivate" (reload selfWindow background allWindows)
        = some (if otherWindowOpen selfWindow background allWindows
            then JSVal.bool true else JSVal.undefined) ∧
      (∀ v, globalWritten "wantsActivate" (reload selfWindow background allWindows) = some v →
        truthy v = otherWindowOpen selfWindow background allWindows) := by
  have hw : globalWritten "wantsActivate" (reload selfWindow background allWindows)
      = some (if otherWindowOpen selfWindow background allWindows
          then JSVal.bool true else JSVal.undefined) := by
    simp only [reload, foldl_reloadVisit, List.nil_append, globalWritten_closes,
      otherWindowOpen]
    simp [globalWritten]
  refine ⟨?_, hw, ?_⟩
  · simp only [reload, foldl_reloadVisit, List.nil_append, globalWritten_closes]
    simp [globalWritten]
  · intro v hv
    rw [hw] at hv
    cases ho : otherWindowOpen selfWindow background allWindows <;>
      simp [ho] at hv <;> subst hv <;> rfl

/-! ## `getPlatformInfo` -/

theorem getProperty_hostMap_inherited (key : String) (h : key ∈ objectPrototypeMembers) :
    getProperty hostMap key = Looked.inherited key := by
  simp only [objectPrototypeMembers, List.mem_cons, List.mem_singleton, List.not_mem_nil,
    or_false] at h
  rcases h with h | h | h | h | h | h | h | h | h | h | h | h <;> subst h <;> decide

theorem getProperty_archMap_inherited (key : String) (h : key ∈ objectPrototypeMembers) :
    getProperty archMap key = Looked.inherited key := by
  simp only [objectPrototypeMembers, List.mem_cons, List.mem_singleton, List.not_mem_nil,
    or_false] at h
  rcases h with h | h | h | h | h | h | h | h | h | h | h | h <;> subst h <;> decide

/-- C10, as stated, fails: the platform string `constructor` and the
architecture string `toString` are not among the recognised identifiers, yet
`getPlatformInfo` does not report them as `undefined`: the table reads find
the members of those names on `Object.prototype`. -/
theorem getPlatformInfo_inherited_member_not_undefined :
    "constructor" ∉ ["darwin", "win32", "linux"] ∧
      "toString" ∉ ["arm", "arm64", "x86", "x32", "x64"] ∧
      (getPlatformInfo "constructor" "toString").os = Looked.inherited "constructor" ∧
      (getPlatformInfo "constructor" "toString").arch = Looked.inherited "toString" ∧
      (getPlatformInfo "constructor" "toString").os ≠ Looked.undefined ∧
      (getPlatformInfo "constructor" "toString").arch ≠ Looked.undefined := by
  decide

/-- C10, amended: `getPlatformInfo` reports `mac`, `win`, `linux` for the
platforms `darwin`, `win32`, `linux`, reports `arm`, `x86-32`, `x86-64` for the
architectures `arm`, `arm64`, `x86`, `x32`, `x64`, reports `nacl_arch` equal
to `arch`, and reports `undefined`, without failing, for every other platform
or architecture string that is not the name of a member of `Object.prototype`;
for such a name it reports the inherited member. -/
theorem getPlatformInfo_table (platform arch : String) :
    (getPlatformInfo platform arch).nacl_arch = (getPlatformInfo platform arch).arch ∧
      (platform ∈ ["darwin", "win32", "linux"] →
        ∃ o ∈ ["mac", "win", "linux"], (getPlatformInfo platform arch).os = Looked.own o) ∧
      (arch ∈ ["arm", "arm64", "x86", "x32", "x64"] →
        ∃ a ∈ ["arm", "x86-32", "x86-64"],
          (getPlatformInfo platform arch).arch = Looked.own a) ∧
      (platform ∉ ["darwin", "win32", "linux"] → platform ∉ objectPrototypeMembers →
        (getPlatformInfo platform arch).os = Looked.undefined) ∧
      (arch ∉ ["arm", "arm64", "x86", "x32", "x64"] → arch ∉ objectPrototypeMembers →
        (getPlatformInfo platform arch).arch = Looked.undefined) ∧
      (platform ∈ objectPrototypeMembers →
        (getPlatformInfo platform arch).os = Looked.inherited platform) ∧
      (arch ∈ objectPrototypeMembers →
        (getPlatformInfo platform arch).arch = Looked.inherited arch) := by
  refine ⟨rfl, ?_, ?_, ?_, ?_, ?_, ?_⟩
  · intro h
    simp only [List.mem_cons, List.mem_singleton, List.not_mem_nil, or_false] at h
    rcases h with h | h | h <;> subst h <;> simp [getPlatformInfo, hostMap, getProperty]
  · intro h
    simp only [List.mem_cons, List.mem_singleton, List.not_mem_nil, or_false] at h
    rcases h with h | h | h | h | h <;> subst h <;>
      simp [getPlatformInfo, archMap, getProperty]
  · intro h hm
    simp only [List.mem_cons, List.mem_singleton, List.not_mem_nil, or_false, not_or] at h
    simp [getPlatformInfo, hostMap, getProperty, h.1, h.2.1, h.2.2, hm]
  · intro h hm
    simp only [List.mem_cons, List.mem_singleton, List.not_mem_nil, or_false, not_or] at h
    simp [getPlatformInfo, archMap, getProperty, h.1, h.2.1, h.2.2.1, h.2.2.2.1, h.2.2.2.2, hm]
  · intro h
    exact getProperty_hostMap_inherited platform h
  · intro h
    exact getProperty_archMap_inherited arch h

theorem getPlatformInfo_table_witness :
    (getPlatformInfo "freebsd" "x64").os = Looked.undefined ∧
      ∃ a ∈ ["arm", "x86-32", "x86-64"], (getPlatformInfo "freebsd" "x64").arch = Looked.own a :=
  ⟨(getPlatformInfo_table "freebsd" "x64").2.2.2.1 (by decide) (by decide),
   (getPlatformInfo_table "freebsd" "x64").2.2.1 (by decide)⟩

/-! ## `createBackground` -/

/-- C8: two calls of `createBackground` made back to back, before any window
exists and before the first creation completes, start one creation only; when
it completes both callers receive the same handle and one background window
exists. -/
theorem createBackground_concurrent_same_handle (firstHandle c1 c2 : Nat)
    (runtimeId : String) :
    (createBackground c2 (createBackground c1 (WinHost.init firstHandle))).created = 1 ∧
      (createBackground c2 (createBackground c1 (WinHost.init firstHandle))).delivered = [] ∧
      (windowCreated "__background"
          (createBackground c2 (createBackground c1 (WinHost.init firstHandle)))).delivered
        = [(c1, firstHandle), (c2, firstHandle)] ∧
      (windowCreated "__background"
          (createBackground c2 (createBackground c1 (WinHost.init firstHandle)))).windows
        = [("__background", firstHandle)] ∧
      (windowCreated "__background"
          (createBackground c2 (createBackground c1 (WinHost.init firstHandle)))).created = 1 ∧
      backgroundCalls runtimeId (windowCreated "__background"
          (createBackground c2 (createBackground c1 (WinHost.init firstHandle))))
        = createBackgroundCallback runtimeId firstHandle ++
            createBackgroundCallback runtimeId firstHandle := by
  simp [createBackground, windowCreate, windowCreated, WinHost.init, List.lookup,
    backgroundCalls]

end ChromeRuntime
